import Mathlib

/-!
Shallow embedding of `DWDGetData.py` (classes `GetFile`, `GetUpdatedFiles`,
`GetStaticFiles`) and proofs about the change-log selection logic, the
fetch/decode pipeline and the two generator pipelines.

Modelling conventions:
* Raw bytes are `List Nat` (values 0..255); decoded text is a Lean `String`.
* External libraries (urllib, bz2, gzip, zipfile, json, re, ftplib) are
  explicit oracle parameters (`Net`, `Libs`, `FtpLib`); the dispatch logic
  around them is translated from the source line by line.
* An uncaught Python exception is the `Except.error` case of `PyExc`; a value
  returned normally (including the `(False, errorinfo)` tuples) is `Except.ok`.
* `datetime` instants are seconds since the Unix epoch (`Int`), always UTC.
  The environment-dependent conversions in `GetUpdatedFiles.start`
  (`datetime.date.today()`, `astimezone` of a naive local timestamp) are not
  modelled: `updated_since` enters the model as the already-UTC-converted
  instant, which is exactly the value line 185 of the source produces.
* The side effect of persisting raw bytes to `localStoragePath` and all
  logging calls have no influence on any returned value and are not modelled.
-/

set_option maxRecDepth 10000

namespace DWD

/-! ## Character-level string helpers (Python / posixpath semantics)

All string operations are re-implemented structurally over `List Char` so
that every definition reduces inside the kernel (witnesses evaluate by
`decide` / `rfl`). -/

/-- ASCII whitespace stripped by Python `str.strip()`. -/
def isPySpace (c : Char) : Bool :=
  c = ' ' || c = '\t' || c = '\n' || c = '\r' || c = '\x0b' || c = '\x0c'

def dropLeadingWs : List Char → List Char
  | [] => []
  | c :: cs => if isPySpace c then dropLeadingWs cs else c :: cs

/-- Python `str.strip()` (ASCII whitespace; the source lines never contain
non-ASCII whitespace). -/
def pyStrip (s : String) : String :=
  ⟨dropLeadingWs ((dropLeadingWs s.data.reverse).reverse)⟩

/-- Split a character list on every occurrence of `sep`, Python
`str.split(sep)` semantics: `"".split(sep) = [""]`. -/
def splitOnChar (sep : Char) : List Char → List (List Char)
  | [] => [[]]
  | c :: cs =>
    let r := splitOnChar sep cs
    if c = sep then [] :: r
    else
      match r with
      | [] => [[c]]
      | h :: t => (c :: h) :: t

/-- Python `s.split("|")`. -/
def pySplitPipe (s : String) : List String :=
  (splitOnChar '|' s.data).map (fun l => (⟨l⟩ : String))

def isPrefixL : List Char → List Char → Bool
  | [], _ => true
  | _ :: _, [] => false
  | a :: as, b :: bs => a = b && isPrefixL as bs

/-- Python `s.startswith(pre)`. -/
def strStartsWith (s pre : String) : Bool := isPrefixL pre.data s.data

/-- Python `s.endswith(suf)`. -/
def strEndsWith (s suf : String) : Bool := isPrefixL suf.data.reverse s.data.reverse

/-- `posixpath.basename`: everything after the last slash. -/
def basename (p : String) : String :=
  ⟨(splitOnChar '/' p.data).getLastD []⟩

/-- Characters of `p` up to and including the last slash (empty if no slash). -/
def dropAfterLastSlash (cs : List Char) : List Char :=
  (cs.reverse.dropWhile (fun c => c ≠ '/')).reverse

def rstripSlash (cs : List Char) : List Char :=
  (cs.reverse.dropWhile (fun c => c = '/')).reverse

/-- `posixpath.dirname`. -/
def dirname (p : String) : String :=
  let head := dropAfterLastSlash p.data
  if head = [] then ""
  else if head.all (fun c => c = '/') then ⟨head⟩
  else ⟨rstripSlash head⟩

/-- `posixpath.splitext`: split off the extension at the last dot of the last
path component, unless every character before that dot (within the component)
is itself a dot. -/
def splitext (p : String) : String × String :=
  let base := (splitOnChar '/' p.data).getLastD []
  let k := (base.reverse.takeWhile (fun c => c ≠ '.')).length
  if k < base.length then
    let stem := base.take (base.length - (k + 1))
    if stem.any (fun c => c ≠ '.') then
      (⟨p.data.take (p.data.length - (k + 1))⟩, ⟨base.drop (base.length - (k + 1))⟩)
    else (p, "")
  else (p, "")

/-- `posixpath.join` for two components (the only arity the source uses,
iterated). -/
def pjoin (a b : String) : String :=
  if strStartsWith b "/" then b
  else if a = "" ∨ strEndsWith a "/" then a ++ b
  else a ++ "/" ++ b

/-- Python `"\n".join(l)`. -/
def joinLines : List String → String
  | [] => ""
  | [s] => s
  | s :: rest => s ++ "\n" ++ joinLines rest

/-! ## Gregorian calendar and `datetime.fromisoformat` -/

def isLeap (y : Nat) : Bool := y % 4 = 0 && (y % 100 ≠ 0 || y % 400 = 0)

def daysInMonth (y m : Nat) : Nat :=
  if m = 2 then (if isLeap y then 29 else 28)
  else if m = 4 ∨ m = 6 ∨ m = 9 ∨ m = 11 then 30
  else 31

def daysBeforeMonth (y m : Nat) : Nat :=
  let base :=
    if m = 1 then 0 else if m = 2 then 31 else if m = 3 then 59
    else if m = 4 then 90 else if m = 5 then 120 else if m = 6 then 151
    else if m = 7 then 181 else if m = 8 then 212 else if m = 9 then 243
    else if m = 10 then 273 else if m = 11 then 304 else 334
  if 2 < m && isLeap y then base + 1 else base

/-- Proleptic Gregorian ordinal, `datetime.date.toordinal`: 0001-01-01 is
day 1. The ordinal of 1970-01-01 is 719163. -/
def toOrdinal (y m d : Nat) : Nat :=
  365 * (y - 1) + (y - 1) / 4 - (y - 1) / 100 + (y - 1) / 400 + daysBeforeMonth y m + d

def dig (c : Char) : Option Nat :=
  if '0' ≤ c && c ≤ '9' then some (c.toNat - 48) else none

def read2 : List Char → Option (Nat × List Char)
  | a :: b :: rest =>
    match dig a, dig b with
    | some x, some y => some (10 * x + y, rest)
    | _, _ => none
  | _ => none

def read4 : List Char → Option (Nat × List Char)
  | a :: b :: c :: d :: rest =>
    match dig a, dig b, dig c, dig d with
    | some w, some x, some y, some z => some (1000 * w + 100 * x + 10 * y + z, rest)
    | _, _, _, _ => none
  | _ => none

/-- Time-of-day part `HH[:MM[:SS]]`, returned in seconds. -/
def readTime (cs : List Char) : Option (Nat × List Char) :=
  match read2 cs with
  | none => none
  | some (h, cs1) =>
    if 24 ≤ h then none
    else
      match cs1 with
      | ':' :: cs2 =>
        match read2 cs2 with
        | none => none
        | some (mi, cs3) =>
          if 60 ≤ mi then none
          else
            match cs3 with
            | ':' :: cs4 =>
              match read2 cs4 with
              | none => none
              | some (s, cs5) =>
                if 60 ≤ s then none else some (3600 * h + 60 * mi + s, cs5)
            | _ => some (3600 * h + 60 * mi, cs3)
      | _ => some (3600 * h, cs1)

/-- UTC-offset suffix `±HH:MM` (the only shape the source ever produces by
appending `+00:00`); anything trailing the offset is rejected, so a timestamp
that already carried an offset fails after a second one is appended. -/
def readOffset : List Char → Option Int
  | [] => some 0
  | sign :: cs =>
    if sign = '+' ∨ sign = '-' then
      match read2 cs with
      | none => none
      | some (oh, cs1) =>
        if 24 ≤ oh then none
        else
          match cs1 with
          | ':' :: cs2 =>
            match read2 cs2 with
            | none => none
            | some (om, cs3) =>
              if 60 ≤ om then none
              else
                match cs3 with
                | [] =>
                  some (if sign = '-' then -((3600 * oh + 60 * om : Nat) : Int)
                        else ((3600 * oh + 60 * om : Nat) : Int))
                | _ => none
          | _ => none
    else none

/-- Model of `datetime.datetime.fromisoformat` (Python ≤ 3.10 grammar
`YYYY-MM-DD[*HH[:MM[:SS]]][±HH:MM]`, any single separator character,
fractional seconds unused by this repository and not modelled), returning the
denoted instant as seconds since the Unix epoch; an input without offset is
naive and, where this model needs an instant, read as UTC. -/
def fromisoformat (s : String) : Option Int :=
  match read4 s.data with
  | none => none
  | some (y, r1) =>
    match r1 with
    | '-' :: r2 =>
      match read2 r2 with
      | none => none
      | some (m, r3) =>
        match r3 with
        | '-' :: r4 =>
          match read2 r4 with
          | none => none
          | some (d, r5) =>
            if y < 1 ∨ m < 1 ∨ 12 < m ∨ d < 1 ∨ daysInMonth y m < d then none
            else
              let days : Int := (toOrdinal y m d : Int) - 719163
              match r5 with
              | [] => some (days * 86400)
              | _ :: r6 =>
                match readTime r6 with
                | none => none
                | some (t, r7) =>
                  match readOffset r7 with
                  | none => none
                  | some off => some (days * 86400 + (t : Int) - off)
        | _ => none
    | _ => none

/-! ## Encodings: strict UTF-8 and ISO-8859-15 -/

def isCont (b : Nat) : Bool := 0x80 ≤ b && b < 0xC0

/-- Strict UTF-8 decoding (Python `bytes.decode("utf-8")`): rejects stray
continuation bytes, overlong forms, surrogates and code points above
U+10FFFF. -/
def utf8Chars : List Nat → Option (List Char)
  | [] => some []
  | b :: bs =>
    if b < 0x80 then (utf8Chars bs).map (fun l => Char.ofNat b :: l)
    else if b < 0xC2 then none
    else if b < 0xE0 then
      match bs with
      | b1 :: bs1 =>
        if isCont b1 then
          (utf8Chars bs1).map (fun l => Char.ofNat ((b - 0xC0) * 0x40 + (b1 - 0x80)) :: l)
        else none
      | _ => none
    else if b < 0xF0 then
      match bs with
      | b1 :: b2 :: bs2 =>
        let cp := (b - 0xE0) * 0x1000 + (b1 - 0x80) * 0x40 + (b2 - 0x80)
        if isCont b1 && isCont b2 && decide (0x800 ≤ cp) &&
            (decide (cp < 0xD800) || decide (0xDFFF < cp)) then
          (utf8Chars bs2).map (fun l => Char.ofNat cp :: l)
        else none
      | _ => none
    else if b < 0xF5 then
      match bs with
      | b1 :: b2 :: b3 :: bs3 =>
        let cp := (b - 0xF0) * 0x40000 + (b1 - 0x80) * 0x1000 + (b2 - 0x80) * 0x40 + (b3 - 0x80)
        if isCont b1 && isCont b2 && isCont b3 && decide (0x10000 ≤ cp) &&
            decide (cp ≤ 0x10FFFF) then
          (utf8Chars bs3).map (fun l => Char.ofNat cp :: l)
        else none
      | _ => none
    else none

def utf8Decode (bs : List Nat) : Option String :=
  (utf8Chars bs).map (fun l => (⟨l⟩ : String))

/-- ISO-8859-15 is ISO-8859-1 with eight positions remapped; every byte value
decodes, so Python `bytes.decode("iso-8859-15")` is total. -/
def latin9Char (b : Nat) : Char :=
  if b = 0xA4 then Char.ofNat 0x20AC
  else if b = 0xA6 then Char.ofNat 0x160
  else if b = 0xA8 then Char.ofNat 0x161
  else if b = 0xB4 then Char.ofNat 0x17D
  else if b = 0xB8 then Char.ofNat 0x17E
  else if b = 0xBC then Char.ofNat 0x152
  else if b = 0xBD then Char.ofNat 0x153
  else if b = 0xBE then Char.ofNat 0x178
  else Char.ofNat b

def latin9Decode (bs : List Nat) : String := ⟨bs.map latin9Char⟩

/-! ## Data model -/

/-- The value flowing through `GetFile.getFile` (`rs` in the source): raw
bytes, decoded text, or the opaque structured value produced by the json
library oracle. -/
inductive Payload where
  | bytes (bs : List Nat)
  | str (s : String)
  | json (j : Nat)
deriving DecidableEq, Repr

/-- The `(t, v, tb)` error information the source returns inside a
`(False, …)` tuple. -/
inductive ErrInfo where
  | httpError
  | jsonDecodeError
  | bufrNotImplemented
deriving DecidableEq, Repr

/-- A value `getFile` returns normally: `(True, payload)` or
`(False, errorinfo)`. -/
inductive GFResult where
  | ok (p : Payload)
  | err (e : ErrInfo)
deriving DecidableEq, Repr

/-- Uncaught Python exceptions escaping a call. `libError` stands for an
exception raised inside a decompression library on malformed input. -/
inductive PyExc where
  | urlError
  | nameError
  | attributeError
  | unicodeDecodeError
  | valueError
  | typeError
  | keyError
  | libError
deriving DecidableEq, Repr

/-- Behaviour of `urllib.request.urlopen` on one URL: a response with status
and body, an `HTTPError` raise, or a transport-level `URLError` raise
(`HTTPError` is the only subclass the source catches). -/
inductive UrlopenResult where
  | resp (status : Nat) (body : List Nat)
  | httpErr
  | urlErr
deriving DecidableEq, Repr

inductive Enc where
  | utf8
  | latin9
deriving DecidableEq, Repr

def decodeEnc : Enc → List Nat → Option String
  | .utf8, bs => utf8Decode bs
  | .latin9, bs => some (latin9Decode bs)

/-- The network, an oracle mapping each URL to what `urlopen` does. -/
structure Net where
  urlopen : String → UrlopenResult

/-- Library oracles. `none` models the library raising on its input.
`zipNamelist`/`zipRead` are `ZipFile.namelist`/`ZipFile.open(...).read`;
`jsonLoads` is `json.loads` (producing an opaque token); `findall` is
`re.findall(pattern, content)` returning the matched lines. -/
structure Libs where
  bz2d : List Nat → Option (List Nat)
  gzd : List Nat → Option (List Nat)
  zipNamelist : List Nat → Option (List String)
  zipRead : List Nat → String → List Nat
  jsonLoads : Payload → Option Nat
  findall : String → String → List String

/-- `ftplib` oracle: whether `cwd` succeeds for a (netloc, directory) pair,
and the `nlst` listing there. -/
structure FtpLib where
  cwdOk : String → String → Bool
  nlst : String → String → List String

/-- Constructor state shared by the classes (`url_base`, `pattern`,
`content_log_file_name` — absent on `GetStaticFiles`/`GetFile`, hence
`Option` — and `min_delta`). `logLevel`/`localStoragePath` only drive
logging and persistence side effects and are not modelled. -/
structure Config where
  url_base : String
  pattern : String
  content_log_file_name : Option String
  min_delta : Int

def textFileExt : List String := [".txt", ".csv", ".log"]

def archiveFileExt : List String := [".bz2", ".gz", ".zip"]

def gribMagic : List Nat := [71, 82, 73, 66]

/-! ## `GetFile` (lines 24–133 of the source) -/

/-- `GetFile.zipdecompress` (lines 89–99): exactly one member → its bytes;
otherwise the error is only logged and the function falls off the end,
implicitly returning `None` (modelled as `.ok none`). A byte string that is
not a zip archive makes `ZipFile` raise (`.error .libError`). -/
def zipdecompress (libs : Libs) (content : List Nat) : Except PyExc (Option (List Nat)) :=
  match libs.zipNamelist content with
  | none => .error .libError
  | some [f] => .ok (some (libs.zipRead content f))
  | some _ => .ok none

/-- The dictionary dispatch of `GetFile.decompress` line 102–107: an unknown
format key raises `KeyError`. -/
def decompressRaw (libs : Libs) (content : List Nat) (fmt : String) :
    Except PyExc (Option (List Nat)) :=
  if fmt = ".bz2" then
    match libs.bz2d content with
    | some r => .ok (some r)
    | none => .error .libError
  else if fmt = ".gz" then
    match libs.gzd content with
    | some r => .ok (some r)
    | none => .error .libError
  else if fmt = ".zip" then zipdecompress libs content
  else .error .keyError

/-- `GetFile.decompress` (lines 101–111). When `zipdecompress` fell through
with `None`, line 108 `rs.startswith(b'GRIB')` raises `AttributeError`.
A `GRIB`-prefixed result short-circuits as raw bytes; otherwise line 111
decodes with `encoding` and an undecodable result raises
`UnicodeDecodeError` (there is no fallback here). -/
def decompress (libs : Libs) (content : List Nat) (fmt : String) (enc : Enc) :
    Except PyExc Payload :=
  match decompressRaw libs content fmt with
  | .error e => .error e
  | .ok none => .error .attributeError
  | .ok (some rs) =>
    if rs.take 4 = gribMagic then .ok (.bytes rs)
    else
      match decodeEnc enc rs with
      | some s => .ok (.str s)
      | none => .error .unicodeDecodeError

/-- Lines 65–67 of `getFile`: archive extensions are decompressed and the
extension is recomputed from the joined basename; `rs` unbound (non-200
non-file response) raises `NameError` at the `decompress(rs, …)` call.
`rs` is always raw bytes at this point when bound. -/
def archiveStep (libs : Libs) (enc : Enc) (ext0 bname : String) (rs0 : Option Payload) :
    Except PyExc (Option Payload × String) :=
  if ext0 ∈ archiveFileExt then
    match rs0 with
    | none => .error .nameError
    | some (.bytes bs) =>
      match decompress libs bs ext0 enc with
      | .error e => .error e
      | .ok p => .ok (some p, (splitext bname).2)
    | some _ => .error .typeError
  else .ok (rs0, ext0)

/-- Lines 70–73: UTF-8 decode with ISO-8859-15 fallback, attempted only when
the decode raises. -/
def textDecodeStep (bs : List Nat) : Payload :=
  match utf8Decode bs with
  | some s => .str s
  | none => .str (latin9Decode bs)

/-- Lines 68–73 of `getFile`: text extensions decode byte payloads (with
fallback); a non-`bytes` payload (text already decoded inside `decompress`)
passes through untouched. The `isinstance(rs, bytes)` test itself raises
`NameError` when `rs` is unbound. -/
def textStep (ext : String) (rs : Option Payload) : Except PyExc (Option Payload) :=
  if ext ∈ textFileExt then
    match rs with
    | none => .error .nameError
    | some (.bytes bs) => .ok (some (textDecodeStep bs))
    | some p => .ok (some p)
  else .ok rs

/-- Lines 74–87 of `getFile`: json extensions parse (a `JSONDecodeError` is
caught and reported as `(False, …)`); `.bin` returns
`(False, NotImplementedError)` before ever touching `rs`; every other
extension (including `.grib*`, whose branch is `pass`) reaches the final
`return (True, rs)`. -/
def finalStep (libs : Libs) (ext : String) (rs : Option Payload) : Except PyExc GFResult :=
  if ext = ".geojson" ∨ ext = ".json" then
    match rs with
    | none => .error .nameError
    | some p =>
      match libs.jsonLoads p with
      | some j => .ok (.ok (.json j))
      | none => .ok (.err .jsonDecodeError)
  else if ext = ".bin" then .ok (.err .bufrNotImplemented)
  else
    match rs with
    | none => .error .nameError
    | some p => .ok (.ok p)

/-- `GetFile.getFile` (lines 47–87). An `HTTPError` is caught and reported
as `(False, errorinfo)`; a `URLError` that is not an `HTTPError` is not
caught and propagates. `rs` is only bound when the status is 200 or the path
starts with `"file"` (line 53). -/
def getFile (net : Net) (libs : Libs) (cfg : Config) (path : String) (enc : Enc) :
    Except PyExc GFResult :=
  let se := splitext (basename path)
  let bname := pjoin (pjoin cfg.url_base (dirname cfg.pattern)) se.1
  match net.urlopen path with
  | .httpErr => .ok (.err .httpError)
  | .urlErr => .error .urlError
  | .resp status body =>
    let rs0 : Option Payload :=
      if status = 200 ∨ strStartsWith path "file" = true then some (.bytes body) else none
    match archiveStep libs enc se.2 bname rs0 with
    | .error e => .error e
    | .ok (rs1, ext1) =>
      match textStep ext1 rs1 with
      | .error e => .error e
      | .ok rs2 => finalStep libs ext1 rs2

/-- `GetFile.grepFromPattern` (lines 113–118): when the instance carries a
truthy `content_log_file_name` attribute the pattern is extended with the
`\|\d*\|.*` suffix. -/
def grepFromPattern (libs : Libs) (cfg : Config) (content : String) : List String :=
  match cfg.content_log_file_name with
  | some n =>
    if n ≠ "" then libs.findall (cfg.pattern ++ "\\|\\d*\\|.*") content
    else libs.findall cfg.pattern content
  | none => libs.findall cfg.pattern content

structure UrlParts where
  netloc : String
  path : String

/-- Chars after the first `"://"`, if any. -/
def splitSchemeRest : List Char → Option (List Char)
  | ':' :: '/' :: '/' :: rest => some rest
  | _ :: cs => splitSchemeRest cs
  | [] => none

/-- The `netloc`/`path` projection of `urllib.parse.urlparse` used by
`getFolderContentList`. -/
def urlparse (s : String) : UrlParts :=
  match splitSchemeRest s.data with
  | some rest =>
    ⟨⟨rest.takeWhile (fun c => c ≠ '/')⟩, ⟨rest.dropWhile (fun c => c ≠ '/')⟩⟩
  | none => ⟨"", s⟩

inductive FclResult where
  | ok (names : List String)
  | err
deriving DecidableEq, Repr

/-- `GetFile.getFolderContentList` (lines 120–133): a failing `cwd` is caught
and reported as `(False, errorinfo)`; otherwise the `nlst` listing is
returned. -/
def getFolderContentList (ftp : FtpLib) (cfg : Config) : FclResult :=
  let u := urlparse cfg.url_base
  let d := u.path ++ dirname cfg.pattern
  if ftp.cwdOk u.netloc d then .ok (ftp.nlst u.netloc d) else .err

/-- What a run of a generator `start` raises: a `PyExc` escaping some call
inside it, or the explicit `raise BaseException` on a failed log/listing
fetch. -/
inductive RunExc where
  | pyExc (e : PyExc)
  | baseException
deriving DecidableEq, Repr

/-! ## `GetUpdatedFiles` (lines 135–209) -/

namespace GetUpdatedFiles

/-- The tuple-unpacking `path, size, changed_at = line.strip().split("|")`
(line 190): succeeds exactly when the split has three fields, else the
`ValueError` is caught and logged. -/
def splitFields (line : String) : Option (String × String × String) :=
  match pySplitPipe (pyStrip line) with
  | [p, sz, c] => some (p, sz, c)
  | _ => none

/-- The state of the Python local variable `changed_at` at the top of a loop
iteration of `getUpdatedData`: unbound (before the first successful split) or
a `datetime` from line 199 of a previous iteration. (The transient string
state after a successful split never survives to the next iteration, because
line 199 immediately replaces or raises.) -/
inductive CAVar where
  | unbound
  | dt (t : Int)
deriving DecidableEq, Repr

/-- The loop of `GetUpdatedFiles.getUpdatedData` (lines 187–208). On a
well-formed line, line 199 parses `changed_at + "+00:00"` (an unparsable
timestamp raises `ValueError`, uncaught — it is outside the `try`), and the
entry is selected iff the delta strictly exceeds `min_delta`; with a falsy
`url_base` the selected path is "appended" by *calling* the list
(`updated_files(path)`, line 208), a `TypeError`. On a malformed line the
`except ValueError` handler only logs — there is no `continue` — so line 199
still runs on the stale `changed_at`: `NameError` if it was never bound,
otherwise `ValueError` (stringifying an aware datetime and appending another
`"+00:00"` never parses). -/
def guAux (cfg : Config) (since : Int) :
    List String → CAVar → List String → Except PyExc (List String)
  | [], _, acc => .ok acc
  | line :: rest, ca, acc =>
    match splitFields line with
    | some (p, _, c) =>
      match fromisoformat (c ++ "+00:00") with
      | none => .error .valueError
      | some t =>
        if cfg.min_delta < t - since then
          if cfg.url_base ≠ "" then
            guAux cfg since rest (.dt t) (acc ++ [pjoin cfg.url_base p])
          else .error .typeError
        else guAux cfg since rest (.dt t) acc
    | none =>
      match ca with
      | .unbound => .error .nameError
      | .dt _ => .error .valueError

/-- `GetUpdatedFiles.getUpdatedData` (lines 184–209); `since` is
`self.updated_since.astimezone(datetime.timezone.utc)` as an epoch instant. -/
def getUpdatedData (cfg : Config) (since : Int) (lines : List String) :
    Except PyExc (List String) :=
  guAux cfg since lines .unbound []

/-- Line 164: `os.path.join(self.url_base, self.content_log_file_name)`. -/
def logUrl (cfg : Config) : String := pjoin cfg.url_base (cfg.content_log_file_name.getD "")

/-- The emission loop of `GetUpdatedFiles.start` (lines 178–182): `indx`
enumerates the *candidate* list; a `(False, …)` fetch result is skipped; a
crash inside `getFile` propagates out of the generator. The second component
records the URLs actually fetched (in order), to express "before any
per-file fetching". -/
def emitLoop (gf : String → Except PyExc GFResult) :
    Nat → List String → Except PyExc (List (Nat × String × Payload)) × List String
  | _, [] => (.ok [], [])
  | i, f :: fs =>
    match gf f with
    | .error e => (.error e, [f])
    | .ok (.err _) =>
      let r := emitLoop gf (i + 1) fs
      (r.1, f :: r.2)
    | .ok (.ok p) =>
      let r := emitLoop gf (i + 1) fs
      (match r.1 with
       | .ok l => .ok ((i, (splitext (basename f)).1, p) :: l)
       | .error e => .error e,
       f :: r.2)

/-- `GetUpdatedFiles.start` (lines 152–182), run to completion, paired with
the trace of URLs fetched. A failed log fetch raises `BaseException`
(line 167) before any per-file fetch. When the fetched log is still raw
bytes, line 168 `content_log.split('\n')` raises `TypeError` (bytes have no
str split); a parsed json value raises `AttributeError` there. -/
def start (net : Net) (libs : Libs) (cfg : Config) (since : Int) :
    Except RunExc (List (Nat × String × Payload)) × List String :=
  let url := logUrl cfg
  match getFile net libs cfg url .utf8 with
  | .error e => (.error (.pyExc e), [url])
  | .ok (.err _) => (.error .baseException, [url])
  | .ok (.ok (.bytes _)) => (.error (.pyExc .typeError), [url])
  | .ok (.ok (.json _)) => (.error (.pyExc .attributeError), [url])
  | .ok (.ok (.str content)) =>
    let lines := grepFromPattern libs cfg content
    match getUpdatedData cfg since lines with
    | .error e => (.error (.pyExc e), [url])
    | .ok files =>
      let r := emitLoop (fun f => getFile net libs cfg f .utf8) 0 files
      (Except.mapError RunExc.pyExc r.1, url :: r.2)

end GetUpdatedFiles

/-! ## `GetStaticFiles` (lines 211–237) -/

namespace GetStaticFiles

/-- The URL the static loop fetches for a candidate name (lines 232–235). -/
def staticUrl (ub f : String) : String := if ub ≠ "" then pjoin ub f else f

/-- The emission loop of `GetStaticFiles.start` (lines 230–237), same
structure as the incremental one but fetching `staticUrl`. -/
def emitLoopStatic (gf : String → Except PyExc GFResult) (ub : String) :
    Nat → List String → Except PyExc (List (Nat × String × Payload)) × List String
  | _, [] => (.ok [], [])
  | i, f :: fs =>
    match gf (staticUrl ub f) with
    | .error e => (.error e, [staticUrl ub f])
    | .ok (.err _) =>
      let r := emitLoopStatic gf ub (i + 1) fs
      (r.1, staticUrl ub f :: r.2)
    | .ok (.ok p) =>
      let r := emitLoopStatic gf ub (i + 1) fs
      (match r.1 with
       | .ok l => .ok ((i, (splitext (basename f)).1, p) :: l)
       | .error e => .error e,
       staticUrl ub f :: r.2)

/-- `GetStaticFiles.start` (lines 224–237) with its fetch trace: a failed
directory listing raises `BaseException` (line 227) before any per-file
fetch. -/
def start (net : Net) (libs : Libs) (ftp : FtpLib) (cfg : Config) :
    Except RunExc (List (Nat × String × Payload)) × List String :=
  match getFolderContentList ftp cfg with
  | .err => (.error .baseException, [])
  | .ok nlst =>
    let reduced := grepFromPattern libs cfg (joinLines nlst)
    let r := emitLoopStatic (fun u => getFile net libs cfg u .utf8) cfg.url_base 0 reduced
    (Except.mapError RunExc.pyExc r.1, r.2)

end GetStaticFiles

/-! ## Specification-side definitions (for the refinement statements) -/

/-- One change-log line as the spec's `LogEntry` selection data: the parsed
`(path, changedAt)` pair, `none` when the line is malformed or its timestamp
unparsable. -/
def parseLine (l : String) : Option (String × Int) :=
  match GetUpdatedFiles.splitFields l with
  | some (p, _, c) => (fromisoformat (c ++ "+00:00")).map (fun t => (p, t))
  | none => none

def parseLines : List String → Option (List (String × Int))
  | [] => some []
  | l :: ls =>
    match parseLine l, parseLines ls with
    | some e, some es => some (e :: es)
    | _, _ => none

/-- Written from the spec's words: an entry is selected iff
`(entry.changedAt - since).totalSeconds() > minDeltaSeconds` (strict), and
selected paths are joined with the base URL in log order. -/
def specSelect (ub : String) (since min_delta : Int) (entries : List (String × Int)) :
    List String :=
  (entries.filter (fun e => min_delta < e.2 - since)).map (fun e => pjoin ub e.1)

/-- Auxiliary classifications of a `getFile` outcome used by the pipeline
claims: `isYield` — the loop yields it; `noCrash` — it does not abort the
generator. -/
def isYield : Except PyExc GFResult → Bool
  | .ok (.ok _) => true
  | _ => false

def noCrash : Except PyExc GFResult → Bool
  | .error _ => false
  | _ => true

/-- Enumeration with explicit start index (`enumerate` in the source). -/
def enumF {α : Type} : Nat → List α → List (Nat × α)
  | _, [] => []
  | i, a :: as => (i, a) :: enumF (i + 1) as

/-! ## Lemmas about `getUpdatedData` -/

theorem guAux_parsed (cfg : Config) (since : Int) (hub : cfg.url_base ≠ "") :
    ∀ (lines : List String) (entries : List (String × Int)) (ca : GetUpdatedFiles.CAVar)
      (acc : List String),
      parseLines lines = some entries →
      GetUpdatedFiles.guAux cfg since lines ca acc =
        .ok (acc ++ specSelect cfg.url_base since cfg.min_delta entries) := by
  intro lines
  induction lines with
  | nil =>
    intro entries ca acc h
    simp only [parseLines, Option.some.injEq] at h
    subst h
    simp [GetUpdatedFiles.guAux, specSelect]
  | cons l ls ih =>
    intro entries ca acc h
    simp only [parseLines] at h
    cases hl : parseLine l with
    | none => rw [hl] at h; exact absurd h (by simp)
    | some e =>
      cases hls : parseLines ls with
      | none => rw [hl, hls] at h; exact absurd h (by simp)
      | some es =>
        rw [hl, hls] at h
        simp only [Option.some.injEq] at h
        obtain ⟨p, t⟩ := e
        cases hsf : GetUpdatedFiles.splitFields l with
        | none => simp [parseLine, hsf] at hl
        | some trip =>
          obtain ⟨p', sz, c⟩ := trip
          cases hiso : fromisoformat (c ++ "+00:00") with
          | none => simp [parseLine, hsf, hiso] at hl
          | some t' =>
            simp only [parseLine, hsf, hiso, Option.map_some', Option.some.injEq,
              Prod.mk.injEq] at hl
            obtain ⟨rfl, rfl⟩ := hl
            subst h
            simp only [GetUpdatedFiles.guAux, hsf, hiso]
            by_cases hc : cfg.min_delta < t' - since
            · rw [if_pos hc, if_pos hub, ih es (.dt t') (acc ++ [pjoin cfg.url_base p']) hls]
              simp [specSelect, List.filter_cons, hc]
            · rw [if_neg hc, ih es (.dt t') acc hls]
              simp [specSelect, List.filter_cons, hc]

theorem guAux_empty_base (cfg : Config) (since : Int) (hub : cfg.url_base = "") :
    ∀ (lines : List String) (entries : List (String × Int)) (ca : GetUpdatedFiles.CAVar)
      (acc : List String),
      parseLines lines = some entries →
      (∃ e ∈ entries, cfg.min_delta < e.2 - since) →
      GetUpdatedFiles.guAux cfg since lines ca acc = .error .typeError := by
  intro lines
  induction lines with
  | nil =>
    intro entries ca acc h hsel
    simp only [parseLines, Option.some.injEq] at h
    subst h
    exact absurd hsel (by simp)
  | cons l ls ih =>
    intro entries ca acc h hsel
    simp only [parseLines] at h
    cases hl : parseLine l with
    | none => rw [hl] at h; exact absurd h (by simp)
    | some e =>
      cases hls : parseLines ls with
      | none => rw [hl, hls] at h; exact absurd h (by simp)
      | some es =>
        rw [hl, hls] at h
        simp only [Option.some.injEq] at h
        obtain ⟨p, t⟩ := e
        cases hsf : GetUpdatedFiles.splitFields l with
        | none => simp [parseLine, hsf] at hl
        | some trip =>
          obtain ⟨p', sz, c⟩ := trip
          cases hiso : fromisoformat (c ++ "+00:00") with
          | none => simp [parseLine, hsf, hiso] at hl
          | some t' =>
            simp only [parseLine, hsf, hiso, Option.map_some', Option.some.injEq,
              Prod.mk.injEq] at hl
            obtain ⟨rfl, rfl⟩ := hl
            subst h
            simp only [GetUpdatedFiles.guAux, hsf, hiso]
            by_cases hc : cfg.min_delta < t' - since
            · rw [if_pos hc, if_neg (by simp [hub])]
            · rw [if_neg hc]
              refine ih es (.dt t') acc hls ?_
              obtain ⟨e, he, hlt⟩ := hsel
              rcases List.mem_cons.mp he with rfl | he'
              · exact absurd hlt hc
              · exact ⟨e, he', hlt⟩

/-! ## Lemmas about the emission loops -/

theorem emitLoop_spec (gf : String → Except PyExc GFResult) :
    ∀ (files : List String) (i : Nat),
      (∀ f ∈ files, noCrash (gf f) = true) →
      ∃ l, (GetUpdatedFiles.emitLoop gf i files).1 = .ok l ∧
        l.map (fun x => x.1) =
          ((enumF i files).filter (fun x => isYield (gf x.2))).map (fun x => x.1) ∧
        l.length = files.countP (fun f => isYield (gf f)) := by
  intro files
  induction files with
  | nil =>
    intro i h
    exact ⟨[], rfl, by simp [enumF], by simp⟩
  | cons f fs ih =>
    intro i h
    obtain ⟨l, h1, h2, h3⟩ := ih (i + 1) (fun g hg => h g (List.mem_cons_of_mem _ hg))
    have hf := h f (List.mem_cons_self _ _)
    cases hgf : gf f with
    | error e => rw [hgf] at hf; exact absurd hf (by simp [noCrash])
    | ok r =>
      cases r with
      | err e =>
        refine ⟨l, ?_, ?_, ?_⟩
        · simp [GetUpdatedFiles.emitLoop, hgf, h1]
        · simp [enumF, List.filter_cons, isYield, hgf, h2]
        · simp [List.countP_cons, isYield, hgf, h3]
      | ok p =>
        refine ⟨(i, (splitext (basename f)).1, p) :: l, ?_, ?_, ?_⟩
        · simp [GetUpdatedFiles.emitLoop, hgf, h1]
        · simp [enumF, List.filter_cons, isYield, hgf, h2]
        · simp [List.countP_cons, isYield, hgf, h3]

theorem emitLoopStatic_spec (gf : String → Except PyExc GFResult) (ub : String) :
    ∀ (files : List String) (i : Nat),
      (∀ f ∈ files, noCrash (gf (GetStaticFiles.staticUrl ub f)) = true) →
      ∃ l, (GetStaticFiles.emitLoopStatic gf ub i files).1 = .ok l ∧
        l.map (fun x => x.1) =
          ((enumF i files).filter
            (fun x => isYield (gf (GetStaticFiles.staticUrl ub x.2)))).map (fun x => x.1) ∧
        l.length = files.countP (fun f => isYield (gf (GetStaticFiles.staticUrl ub f))) := by
  intro files
  induction files with
  | nil =>
    intro i h
    exact ⟨[], rfl, by simp [enumF], by simp⟩
  | cons f fs ih =>
    intro i h
    obtain ⟨l, h1, h2, h3⟩ := ih (i + 1) (fun g hg => h g (List.mem_cons_of_mem _ hg))
    have hf := h f (List.mem_cons_self _ _)
    cases hgf : gf (GetStaticFiles.staticUrl ub f) with
    | error e => rw [hgf] at hf; exact absurd hf (by simp [noCrash])
    | ok r =>
      cases r with
      | err e =>
        refine ⟨l, ?_, ?_, ?_⟩
        · simp [GetStaticFiles.emitLoopStatic, hgf, h1]
        · simp [enumF, List.filter_cons, isYield, hgf, h2]
        · simp [List.countP_cons, isYield, hgf, h3]
      | ok p =>
        refine ⟨(i, (splitext (basename f)).1, p) :: l, ?_, ?_, ?_⟩
        · simp [GetStaticFiles.emitLoopStatic, hgf, h1]
        · simp [enumF, List.filter_cons, isYield, hgf, h2]
        · simp [List.countP_cons, isYield, hgf, h3]

/-! ## Lemmas about the `getFile` pipeline steps -/

theorem archiveStep_skip (libs : Libs) (enc : Enc) (ext0 bname : String)
    (rs0 : Option Payload) (h : ext0 ∉ archiveFileExt) :
    archiveStep libs enc ext0 bname rs0 = .ok (rs0, ext0) := by
  simp [archiveStep, h]

theorem textStep_skip (ext : String) (rs : Option Payload) (h : ext ∉ textFileExt) :
    textStep ext rs = .ok rs := by
  simp [textStep, h]

theorem textStep_bytes (ext : String) (bs : List Nat) (h : ext ∈ textFileExt) :
    textStep ext (some (.bytes bs)) = .ok (some (textDecodeStep bs)) := by
  simp [textStep, h]

theorem finalStep_other (libs : Libs) (ext : String) (p : Payload)
    (h1 : ¬(ext = ".geojson" ∨ ext = ".json")) (h2 : ext ≠ ".bin") :
    finalStep libs ext (some p) = .ok (.ok p) := by
  simp [finalStep, h1, h2]

/-- A successfully fetched (status 200) resource with a text extension is
decoded by `textDecodeStep` (UTF-8, falling back to ISO-8859-15 only when the
UTF-8 decode fails). -/
theorem getFile_text (net : Net) (libs : Libs) (cfg : Config) (path : String)
    (body : List Nat) (ex : String)
    (hfetch : net.urlopen path = .resp 200 body)
    (hext : (splitext (basename path)).2 = ex)
    (ht : ex ∈ textFileExt) :
    getFile net libs cfg path .utf8 = .ok (.ok (textDecodeStep body)) := by
  fin_cases ht <;>
  simp [getFile, hfetch, hext, archiveStep, textStep, finalStep,
    archiveFileExt, textFileExt]

/-! ## Shared concrete instances for counterexamples and witnesses -/

/-- Inert library oracle (every library call would raise / match nothing). -/
def libs0 : Libs :=
  ⟨fun _ => none, fun _ => none, fun _ => none, fun _ _ => [], fun _ => none, fun _ _ => []⟩

/-- A bare `GetFile`-style configuration: empty `url_base`, empty pattern. -/
def cfg0 : Config := ⟨"", "", none, 60⟩

/-! ## C1 — change-log selection is a strict-delta filter -/

/-- C1: for change-log lines that parse (three pipe-delimited fields with a
parseable timestamp, which is what the log-mode pattern selects) and a truthy
`url_base`, `getUpdatedData` returns exactly the spec-side selection: an
entry is selected iff its UTC `changed_at` exceeds the UTC cutoff by strictly
more than `min_delta` seconds (a delta of exactly `min_delta` is excluded),
joined with the base URL in log order. -/
theorem c1_selection (cfg : Config) (since : Int) (lines : List String)
    (entries : List (String × Int))
    (hp : parseLines lines = some entries)
    (hub : cfg.url_base ≠ "") :
    GetUpdatedFiles.getUpdatedData cfg since lines =
      .ok (specSelect cfg.url_base since cfg.min_delta entries) := by
  have h := guAux_parsed cfg since hub lines entries .unbound [] hp
  simpa [GetUpdatedFiles.getUpdatedData] using h

def cfgW1 : Config :=
  ⟨"https://opendata.dwd.de/weather/nwp", "icon-d2/grib", some "content.log.bz2", 60⟩

def linesW1 : List String :=
  ["a/b.grib2|120|2022-08-05 00:01:00",
   "a/c.grib2|120|2022-08-05 00:01:01",
   "a/d.grib2|120|2022-08-04 23:50:00"]

def entriesW1 : List (String × Int) :=
  [("a/b.grib2", 1659657660), ("a/c.grib2", 1659657661), ("a/d.grib2", 1659657000)]

/-- C1 witness: with `since = 2022-08-05 00:00:00` UTC and `min_delta = 60`,
the entry at delta exactly 60 s is excluded and only the delta-61 s entry is
selected. -/
theorem c1_selection_witness :
    parseLines linesW1 = some entriesW1 ∧
    cfgW1.url_base ≠ "" ∧
    GetUpdatedFiles.getUpdatedData cfgW1 1659657600 linesW1 =
      .ok (specSelect cfgW1.url_base 1659657600 cfgW1.min_delta entriesW1) ∧
    specSelect cfgW1.url_base 1659657600 cfgW1.min_delta entriesW1 =
      ["https://opendata.dwd.de/weather/nwp/a/c.grib2"] :=
  ⟨by decide, by decide,
   c1_selection cfgW1 1659657600 linesW1 entriesW1 (by decide) (by decide),
   by decide⟩

/-! ## C2 — a malformed line crashes the loop instead of being skipped -/

def cfgC2 : Config := ⟨"https://opendata.dwd.de", "", some "content.log.bz2", 60⟩

/-- C2 evidence (code bug): a line that does not split into three fields is
*not* dropped-and-continued. The `except ValueError` handler (line 193) only
logs and lacks a `continue`, so line 199 still runs on the stale `changed_at`
value: with a well-formed line before it, re-parsing the stringified aware
datetime with another `"+00:00"` appended raises an uncaught `ValueError`;
with the malformed line first, `changed_at` is unbound and line 199 raises
`NameError`. Either way `getUpdatedData` aborts and the following well-formed
line is never processed. -/
theorem c2_malformed_crash :
    GetUpdatedFiles.getUpdatedData cfgC2 1659657600
      ["a/b.txt|10|2022-08-05 00:05:00", "bad|line", "a/c.txt|10|2022-08-05 00:06:00"] =
      .error .valueError ∧
    GetUpdatedFiles.getUpdatedData cfgC2 1659657600
      ["bad|line", "a/c.txt|10|2022-08-05 00:06:00"] = .error .nameError :=
  ⟨rfl, rfl⟩

/-! ## C3 — failed candidates are skipped but indices keep candidate positions -/

def gfC3 : String → Except PyExc GFResult := fun f =>
  if f = "b.txt" then .ok (.err .httpError) else .ok (.ok (.bytes [1]))

def filesC3 : List String := ["a.txt", "b.txt", "c.txt", "d.txt", "e.txt"]

def resC3 : List (Nat × String × Payload) :=
  [(0, "a", .bytes [1]), (2, "c", .bytes [1]), (3, "d", .bytes [1]), (4, "e", .bytes [1])]

/-- C3 counterexample: over 5 candidates with the second failing, exactly 4
results are yielded, but their `indx` values are `[0, 2, 3, 4]` — the
candidate positions from `enumerate(updated_files)` — not the consecutive
`0,1,2,3` of emission order that the claim asserts. -/
theorem c3_counterexample :
    (GetUpdatedFiles.emitLoop gfC3 0 filesC3).1 = .ok resC3 ∧
    resC3.length = 4 ∧
    resC3.map (fun x => x.1) = [0, 2, 3, 4] ∧
    resC3.map (fun x => x.1) ≠ List.range resC3.length :=
  ⟨rfl, rfl, rfl, by decide⟩

/-- C3 (amended): in both pipeline variants a candidate whose fetch/decode
returns a failure is omitted from the yielded sequence (5 matched names with
one failing resource yield exactly 4 results), and the `index` of each
yielded `FetchedResource` is the candidate's position in the matched list —
assigned by enumerating candidates, so skipped candidates leave gaps rather
than the indices being consecutive. -/
theorem c3_amended :
    (∀ (gf : String → Except PyExc GFResult) (files : List String),
      (∀ f ∈ files, noCrash (gf f) = true) →
      ∃ l, (GetUpdatedFiles.emitLoop gf 0 files).1 = .ok l ∧
        l.map (fun x => x.1) =
          ((enumF 0 files).filter (fun x => isYield (gf x.2))).map (fun x => x.1) ∧
        l.length = files.countP (fun f => isYield (gf f))) ∧
    (∀ (gf : String → Except PyExc GFResult) (ub : String) (files : List String),
      (∀ f ∈ files, noCrash (gf (GetStaticFiles.staticUrl ub f)) = true) →
      ∃ l, (GetStaticFiles.emitLoopStatic gf ub 0 files).1 = .ok l ∧
        l.map (fun x => x.1) =
          ((enumF 0 files).filter
            (fun x => isYield (gf (GetStaticFiles.staticUrl ub x.2)))).map (fun x => x.1) ∧
        l.length = files.countP (fun f => isYield (gf (GetStaticFiles.staticUrl ub f)))) :=
  ⟨fun gf files h => emitLoop_spec gf files 0 h,
   fun gf ub files h => emitLoopStatic_spec gf ub files 0 h⟩

/-- C3 witness: the amended characterization instantiated on the concrete
5-candidate run with one failing resource, for both variants. -/
theorem c3_amended_witness :
    (∀ f ∈ filesC3, noCrash (gfC3 f) = true) ∧
    (∃ l, (GetUpdatedFiles.emitLoop gfC3 0 filesC3).1 = .ok l ∧
      l.map (fun x => x.1) =
        ((enumF 0 filesC3).filter (fun x => isYield (gfC3 x.2))).map (fun x => x.1) ∧
      l.length = filesC3.countP (fun f => isYield (gfC3 f))) ∧
    (∃ l, (GetStaticFiles.emitLoopStatic gfC3 "https://h" 0 filesC3).1 = .ok l ∧
      l.map (fun x => x.1) =
        ((enumF 0 filesC3).filter
          (fun x => isYield (gfC3 (GetStaticFiles.staticUrl "https://h" x.2)))).map
            (fun x => x.1) ∧
      l.length = filesC3.countP
        (fun f => isYield (gfC3 (GetStaticFiles.staticUrl "https://h" f)))) :=
  ⟨by decide,
   c3_amended.1 gfC3 filesC3 (by decide),
   c3_amended.2 gfC3 "https://h" filesC3 (by decide)⟩

/-! ## C4 — the GRIB short-circuit exists only inside decompress -/

def netG4 : Net := ⟨fun _ => .resp 200 [71, 82, 73, 66, 255]⟩

def gribStr : String := latin9Decode [71, 82, 73, 66, 255]

/-- C4 counterexample: a resource declared `.txt` whose body begins with the
4-byte `GRIB` magic *is* routed through text decoding (UTF-8 fails on the
trailing byte, the ISO-8859-15 fallback succeeds) and `getFile` returns a
decoded string, not the undecoded bytes — the claimed
extension-independent GRIB bypass does not exist outside `decompress`. -/
theorem c4_counterexample :
    List.take 4 [71, 82, 73, 66, 255] = gribMagic ∧
    getFile netG4 libs0 cfg0 "x.txt" .utf8 = .ok (.ok (.str gribStr)) ∧
    (∀ bs : List Nat, Payload.str gribStr ≠ Payload.bytes bs) :=
  ⟨rfl, rfl, fun _ h => Payload.noConfusion h⟩

def cfg4 : Config :=
  ⟨"https://opendata.dwd.de/weather/nwp", "icon-d2/grib/x", some "content.log.bz2", 60⟩

/-- C4 (amended): the GRIB short-circuit lives inside `decompress` only:
for an archived payload whose decompressed bytes begin with the `GRIB` magic,
`decompress` skips its text decode and, the unwrapped extension being
`.grib*` (neither a text nor a json type), `getFile` returns the bytes
undecoded. Payloads with a declared text/json extension and no archive
wrapper are still text/JSON-decoded even when they begin with `GRIB`. -/
theorem c4_amended (net : Net) (libs : Libs) (body r : List Nat)
    (hfetch : net.urlopen "x.grib2.bz2" = .resp 200 body)
    (hbz : libs.bz2d body = some r)
    (hg : r.take 4 = gribMagic) :
    getFile net libs cfg4 "x.grib2.bz2" .utf8 = .ok (.ok (.bytes r)) := by
  have h1 : (splitext (basename "x.grib2.bz2")).2 = ".bz2" := rfl
  have h2 : (splitext (pjoin (pjoin "https://opendata.dwd.de/weather/nwp"
      (dirname "icon-d2/grib/x")) (splitext (basename "x.grib2.bz2")).1)).2 = ".grib2" := rfl
  simp [getFile, hfetch, archiveStep, textStep, finalStep, decompress, decompressRaw,
    hbz, hg, archiveFileExt, textFileExt, cfg4, h1, h2]

def net4w : Net := ⟨fun _ => .resp 200 [9]⟩

def libs4w : Libs :=
  ⟨fun _ => some [71, 82, 73, 66, 0, 1], fun _ => none, fun _ => none, fun _ _ => [],
   fun _ => none, fun _ _ => []⟩

/-- C4 witness: a `.grib2.bz2` fetch whose decompressed body is
GRIB-prefixed comes back as the raw decompressed bytes. -/
theorem c4_amended_witness :
    libs4w.bz2d [9] = some [71, 82, 73, 66, 0, 1] ∧
    List.take 4 [71, 82, 73, 66, 0, 1] = gribMagic ∧
    getFile net4w libs4w cfg4 "x.grib2.bz2" .utf8 =
      .ok (.ok (.bytes [71, 82, 73, 66, 0, 1])) :=
  ⟨rfl, rfl, c4_amended net4w libs4w [9] [71, 82, 73, 66, 0, 1] rfl rfl rfl⟩

/-! ## C5 — multi-member zip: logged, then crashes on `None` -/

def libsZ1 : Libs :=
  ⟨fun _ => none, fun _ => none, fun _ => some ["only.txt"], fun _ _ => [1, 2, 3],
   fun _ => none, fun _ _ => []⟩

def libsZ2 : Libs :=
  ⟨fun _ => none, fun _ => none, fun _ => some ["a.txt", "b.txt"], fun _ _ => [],
   fun _ => none, fun _ _ => []⟩

/-- C5 evidence (code bug): with exactly one member, `zipdecompress` returns
that member's raw bytes as claimed; with two members it only logs the
ambiguity and implicitly returns `None`, so `decompress` line 108
(`rs.startswith(b'GRIB')`) raises an uncaught `AttributeError` — a crash that
aborts the run, not the claimed reported `ArchiveAmbiguousError` outcome. -/
theorem c5_zip_code_bug :
    zipdecompress libsZ1 [0] = .ok (some [1, 2, 3]) ∧
    (libsZ2.zipNamelist [0]).map List.length = some 2 ∧
    decompress libsZ2 [0] ".zip" .utf8 = .error .attributeError :=
  ⟨rfl, rfl, rfl⟩

/-! ## C6 — the UTF-8→ISO-8859-15 fallback exists only for direct text -/

def netT6 : Net := ⟨fun _ => .resp 200 [0]⟩

def libsT6 : Libs :=
  ⟨fun _ => some [228], fun _ => none, fun _ => none, fun _ _ => [],
   fun _ => none, fun _ _ => []⟩

/-- C6 counterexample: a text payload unwrapped from a `.bz2` archive whose
bytes (`[0xE4]`, valid ISO-8859-15) are not valid UTF-8 makes `getFile`
raise `UnicodeDecodeError`: the decode inside `decompress` (line 111) has no
fallback, contradicting the claim that this also holds for archived text and
that no decode error is raised. -/
theorem c6_counterexample :
    utf8Decode [228] = none ∧
    getFile netT6 libsT6 cfg0 "x.txt.bz2" .utf8 = .error .unicodeDecodeError :=
  ⟨rfl, rfl⟩

/-- C6 (amended): for *direct* (non-archived) byte payloads with a text
extension, decoding tries UTF-8 and falls back to ISO-8859-15 exactly when
the UTF-8 decode fails — payloads valid in UTF-8 never invoke the fallback
and no decode error escapes. A text payload unwrapped from an archive,
however, is decoded UTF-8-only inside `decompress`, and a decode failure
there raises `UnicodeDecodeError` past this point. -/
theorem c6_amended :
    (∀ (net : Net) (libs : Libs) (cfg : Config) (path : String) (body : List Nat)
        (s : String),
      net.urlopen path = .resp 200 body →
      (splitext (basename path)).2 ∈ textFileExt →
      utf8Decode body = some s →
      getFile net libs cfg path .utf8 = .ok (.ok (.str s))) ∧
    (∀ (net : Net) (libs : Libs) (cfg : Config) (path : String) (body : List Nat),
      net.urlopen path = .resp 200 body →
      (splitext (basename path)).2 ∈ textFileExt →
      utf8Decode body = none →
      getFile net libs cfg path .utf8 = .ok (.ok (.str (latin9Decode body)))) ∧
    (∀ (net : Net) (libs : Libs) (body m : List Nat),
      net.urlopen "x.txt.bz2" = .resp 200 body →
      libs.bz2d body = some m →
      m.take 4 ≠ gribMagic →
      utf8Decode m = none →
      getFile net libs cfg0 "x.txt.bz2" .utf8 = .error .unicodeDecodeError) := by
  refine ⟨?_, ?_, ?_⟩
  · intro net libs cfg path body s hf ht hd
    rw [getFile_text net libs cfg path body _ hf rfl ht]
    simp [textDecodeStep, hd]
  · intro net libs cfg path body hf ht hd
    rw [getFile_text net libs cfg path body _ hf rfl ht]
    simp [textDecodeStep, hd]
  · intro net libs body m hf hb hg hd
    have h1 : (splitext (basename "x.txt.bz2")).2 = ".bz2" := rfl
    simp [getFile, hf, archiveStep, textStep, finalStep, decompress, decompressRaw,
      decodeEnc, hb, hg, hd, archiveFileExt, textFileExt, cfg0, h1]

def net6a : Net := ⟨fun _ => .resp 200 [104, 105]⟩

def net6b : Net := ⟨fun _ => .resp 200 [228]⟩

/-- C6 witness: a valid-UTF-8 `.txt` body decodes without the fallback, an
invalid one falls back to ISO-8859-15, and the archived invalid one
crashes. -/
theorem c6_amended_witness :
    utf8Decode [104, 105] = some "hi" ∧
    getFile net6a libs0 cfg0 "a.txt" .utf8 = .ok (.ok (.str "hi")) ∧
    utf8Decode [228] = none ∧
    getFile net6b libs0 cfg0 "a.txt" .utf8 = .ok (.ok (.str (latin9Decode [228]))) ∧
    getFile netT6 libsT6 cfg0 "x.txt.bz2" .utf8 = .error .unicodeDecodeError :=
  ⟨by decide,
   c6_amended.1 net6a libs0 cfg0 "a.txt" [104, 105] "hi" rfl (by decide) (by decide),
   by decide,
   c6_amended.2.1 net6b libs0 cfg0 "a.txt" [228] rfl (by decide) (by decide),
   c6_amended.2.2 netT6 libsT6 [0] [228] rfl rfl (by decide) (by decide)⟩

/-! ## C7 — only `HTTPError` is caught; transport errors propagate -/

def netE7 : Net := ⟨fun _ => .urlErr⟩

/-- C7 counterexample: a transport-level failure (`URLError` that is not an
`HTTPError`, e.g. connection refused) is not caught by the
`except HTTPError` clause, so `getFile` raises instead of returning the
claimed `(false, NetworkError)` value. -/
theorem c7_counterexample :
    getFile netE7 libs0 cfg0 "https://x/f.txt" .utf8 = .error .urlError ∧
    (∀ r : GFResult, (Except.error PyExc.urlError : Except PyExc GFResult) ≠ .ok r) :=
  ⟨rfl, fun _ h => Except.noConfusion h⟩

/-- C7 (amended): a fetch failure surfacing as `HTTPError` (an HTTP error
status) makes `getFile` return the `(false, NetworkError)` outcome to its
caller without retrying and without raising; transport-level `URLError`
failures are not caught and propagate as exceptions. -/
theorem c7_amended (net : Net) (libs : Libs) (cfg : Config) (path : String) (enc : Enc)
    (h : net.urlopen path = .httpErr) :
    getFile net libs cfg path enc = .ok (.err .httpError) := by
  simp [getFile, h]

def netH7 : Net := ⟨fun _ => .httpErr⟩

/-- C7 witness: an `HTTPError` fetch returns the reported failure value. -/
theorem c7_amended_witness :
    netH7.urlopen "https://x/f.txt" = .httpErr ∧
    getFile netH7 libs0 cfg0 "https://x/f.txt" .utf8 = .ok (.err .httpError) :=
  ⟨rfl, c7_amended netH7 libs0 cfg0 "https://x/f.txt" .utf8 rfl⟩

/-! ## C8 — log/listing fetch failure is fatal; per-candidate errors are not -/

/-- C8: (i) if the change-log fetch of the incremental variant returns a
failure, `start` raises `BaseException` immediately and its fetch trace
contains only the log URL — no per-file fetch happened; (ii) if the
full-snapshot variant's directory change fails, `start` raises
`BaseException` with an empty fetch trace; (iii) when the log fetch and
selection succeed and no per-candidate fetch crashes, per-candidate
`(False, …)` errors do not abort the run: `start` completes with a result
list. -/
theorem c8_fatal_vs_skip :
    (∀ (net : Net) (libs : Libs) (cfg : Config) (since : Int) (e : ErrInfo),
      getFile net libs cfg (GetUpdatedFiles.logUrl cfg) .utf8 = .ok (.err e) →
      GetUpdatedFiles.start net libs cfg since =
        (.error .baseException, [GetUpdatedFiles.logUrl cfg])) ∧
    (∀ (net : Net) (libs : Libs) (ftp : FtpLib) (cfg : Config),
      ftp.cwdOk (urlparse cfg.url_base).netloc
          ((urlparse cfg.url_base).path ++ dirname cfg.pattern) = false →
      GetStaticFiles.start net libs ftp cfg = (.error .baseException, [])) ∧
    (∀ (net : Net) (libs : Libs) (cfg : Config) (since : Int) (content : String)
        (files : List String),
      getFile net libs cfg (GetUpdatedFiles.logUrl cfg) .utf8 = .ok (.ok (.str content)) →
      GetUpdatedFiles.getUpdatedData cfg since (grepFromPattern libs cfg content) =
        .ok files →
      (∀ f ∈ files, noCrash (getFile net libs cfg f .utf8) = true) →
      ∃ l, (GetUpdatedFiles.start net libs cfg since).1 = .ok l) := by
  refine ⟨?_, ?_, ?_⟩
  · intro net libs cfg since e h
    simp [GetUpdatedFiles.start, h]
  · intro net libs ftp cfg h
    simp [GetStaticFiles.start, getFolderContentList, h]
  · intro net libs cfg since content files hlog hsel hnc
    obtain ⟨l, h1, -, -⟩ := emitLoop_spec (fun f => getFile net libs cfg f .utf8) files 0 hnc
    exact ⟨l, by simp [GetUpdatedFiles.start, hlog, hsel, h1, Except.mapError]⟩

def cfgW8 : Config := ⟨"https://host", "", some "content.log", 60⟩

def netH8 : Net := ⟨fun _ => .httpErr⟩

def ftpF8 : FtpLib := ⟨fun _ _ => false, fun _ _ => []⟩

def logBytes8 : List Nat := "x.txt|1|2022-08-05 00:05:00".data.map Char.toNat

def netC8 : Net :=
  ⟨fun u => if u = "https://host/content.log" then .resp 200 logBytes8
            else .resp 200 [104, 105]⟩

def libsC8 : Libs :=
  ⟨fun _ => none, fun _ => none, fun _ => none, fun _ _ => [],
   fun _ => none, fun _ _ => ["x.txt|1|2022-08-05 00:05:00"]⟩

/-- C8 witness: all three parts instantiated — a failing log fetch aborts
with only the log URL fetched, a failing directory change aborts with
nothing fetched, and a clean incremental run completes. -/
theorem c8_witness :
    GetUpdatedFiles.start netH8 libsC8 cfgW8 0 =
      (.error .baseException, ["https://host/content.log"]) ∧
    GetStaticFiles.start netH8 libsC8 ftpF8 cfgW8 = (.error .baseException, []) ∧
    (∃ l, (GetUpdatedFiles.start netC8 libsC8 cfgW8 1659657600).1 = .ok l) :=
  ⟨c8_fatal_vs_skip.1 netH8 libsC8 cfgW8 0 .httpError rfl,
   c8_fatal_vs_skip.2.1 netH8 libsC8 ftpF8 cfgW8 rfl,
   c8_fatal_vs_skip.2.2 netC8 libsC8 cfgW8 1659657600 "x.txt|1|2022-08-05 00:05:00"
     ["https://host/x.txt"] rfl rfl (by decide)⟩

/-! ## C9 — `.bin` is rejected regardless of content -/

/-- C9: a fetched resource whose path extension is `.bin` always yields the
`(False, NotImplementedError)` outcome — the `.bin` branch returns before
`rs` is ever inspected, so the result is independent of the response status
and byte content. -/
theorem c9_bin (net : Net) (libs : Libs) (cfg : Config) (path : String) (enc : Enc)
    (status : Nat) (body : List Nat)
    (hfetch : net.urlopen path = .resp status body)
    (hext : (splitext (basename path)).2 = ".bin") :
    getFile net libs cfg path enc = .ok (.err .bufrNotImplemented) := by
  simp [getFile, hfetch, hext, archiveStep, textStep, finalStep,
    archiveFileExt, textFileExt]

def netB9 : Net := ⟨fun _ => .resp 200 [1, 2, 3]⟩

/-- C9 witness: a concrete `.bin` fetch. -/
theorem c9_bin_witness :
    netB9.urlopen "d/f.bin" = .resp 200 [1, 2, 3] ∧
    (splitext (basename "d/f.bin")).2 = ".bin" ∧
    getFile netB9 libs0 cfg0 "d/f.bin" .utf8 = .ok (.err .bufrNotImplemented) :=
  ⟨rfl, rfl, c9_bin netB9 libs0 cfg0 "d/f.bin" .utf8 200 [1, 2, 3] rfl rfl⟩

/-! ## C10 — empty `url_base` turns selection into a `TypeError` -/

/-- C10: with a falsy `url_base`, as soon as one parsed change-log entry
passes the strict-delta selection, line 208 calls the accumulator *list*
(`updated_files(path)`) and `getUpdatedData` raises `TypeError` instead of
returning bare paths; selection can only return normally when `url_base` is
non-empty (see the C1 theorem). -/
theorem c10_empty_urlbase (cfg : Config) (since : Int) (lines : List String)
    (entries : List (String × Int))
    (hp : parseLines lines = some entries)
    (hub : cfg.url_base = "")
    (hsel : ∃ e ∈ entries, cfg.min_delta < e.2 - since) :
    GetUpdatedFiles.getUpdatedData cfg since lines = .error .typeError :=
  guAux_empty_base cfg since hub lines entries .unbound [] hp hsel

/-- C10 witness: one entry 120 s past the cutoff under an empty `url_base`. -/
theorem c10_empty_urlbase_witness :
    parseLines ["a.txt|1|2022-08-05 00:02:00"] = some [("a.txt", 1659657720)] ∧
    cfg0.url_base = "" ∧
    (∃ e ∈ [(("a.txt" : String), (1659657720 : Int))], cfg0.min_delta < e.2 - 1659657600) ∧
    GetUpdatedFiles.getUpdatedData cfg0 1659657600 ["a.txt|1|2022-08-05 00:02:00"] =
      .error .typeError :=
  ⟨by decide, rfl, ⟨("a.txt", 1659657720), by decide, by decide⟩,
   c10_empty_urlbase cfg0 1659657600 ["a.txt|1|2022-08-05 00:02:00"]
     [("a.txt", 1659657720)] (by decide) rfl
     ⟨("a.txt", 1659657720), by decide, by decide⟩⟩

end DWD
